import Mathlib

/-!
Verification development for the image acquisition and normalization pipeline
of `frontend/app/analyse/page.tsx`.

Embedding conventions:
* JavaScript strings are embedded as `List Char`; binary data (`ArrayBuffer`,
  `Uint8Array`, `Blob` contents) as `List Nat` with every entry `< 256`.
* The platform built-ins `atob` (WHATWG forgiving-base64 decode) and `btoa`
  (base64 encode) are embedded as executable functions over these types.
* Fallible code (a JavaScript `throw`) is embedded with `Except`/`Option`.
* The React component state is embedded as explicit state records with
  deterministic step functions over event lists.
-/

namespace MariHacks

/-- The base64 alphabet shared by the platform functions `btoa` and `atob`. -/
def b64Alphabet : List Char :=
  ['A', 'B', 'C', 'D', 'E', 'F', 'G', 'H', 'I', 'J', 'K', 'L', 'M',
   'N', 'O', 'P', 'Q', 'R', 'S', 'T', 'U', 'V', 'W', 'X', 'Y', 'Z',
   'a', 'b', 'c', 'd', 'e', 'f', 'g', 'h', 'i', 'j', 'k', 'l', 'm',
   'n', 'o', 'p', 'q', 'r', 's', 't', 'u', 'v', 'w', 'x', 'y', 'z',
   '0', '1', '2', '3', '4', '5', '6', '7', '8', '9', '+', '/']

/-- Character for a six-bit value. -/
def b64Char (n : Nat) : Char := b64Alphabet.getD n 'A'

/-- Position of a character in the alphabet, scanning from index `i`. -/
def b64IndexAux : List Char → Char → Nat → Option Nat
  | [], _, _ => none
  | a :: rest, c, i => if a = c then some i else b64IndexAux rest c (i + 1)

/-- Six-bit value of an alphabet character; `none` for every other character
(`'='` included, which is how forgiving-base64 rejects stray padding). -/
def b64Index (c : Char) : Option Nat := b64IndexAux b64Alphabet c 0

/-- Base64 encoding of a byte list, exactly as `btoa` produces it for a binary
string: three bytes become four alphabet characters, a final one-byte group
becomes two characters plus `"=="`, a final two-byte group three characters
plus `"="`. -/
def base64Encode : List Nat → List Char
  | [] => []
  | [a] => [b64Char (a / 4), b64Char (a % 4 * 16), '=', '=']
  | [a, b] => [b64Char (a / 4), b64Char (a % 4 * 16 + b / 16), b64Char (b % 16 * 4), '=']
  | a :: b :: c :: rest =>
      b64Char (a / 4) :: b64Char (a % 4 * 16 + b / 16) ::
        b64Char (b % 16 * 4 + c / 64) :: b64Char (c % 64) :: base64Encode rest

/-- ASCII whitespace, which forgiving-base64 decode removes first. -/
def isB64Ws (c : Char) : Bool :=
  c = ' ' || c = '\t' || c = '\n' || c = '\x0c' || c = '\r'

/-- Removal of up to two trailing `'='` characters (the padding-stripping step
of forgiving-base64 decode; the caller only applies it when the length is a
multiple of four). -/
def dropPad : List Char → List Char
  | [] => []
  | [c1] => if c1 = '=' then [] else [c1]
  | [c1, c2] => if c2 = '=' then (if c1 = '=' then [] else [c1]) else [c1, c2]
  | c1 :: c2 :: c3 :: rest => c1 :: dropPad (c2 :: c3 :: rest)

/-- Six-bit values of every character, `none` as soon as one is invalid. -/
def mapB64Index : List Char → Option (List Nat)
  | [] => some []
  | c :: rest =>
    match b64Index c, mapB64Index rest with
    | some v, some vs => some (v :: vs)
    | _, _ => none

/-- Bit reassembly of forgiving-base64 decode: four six-bit groups give three
bytes; a trailing group of two gives one byte (the low four bits are
discarded), a trailing group of three gives two bytes (the low two bits are
discarded). A trailing group of one was already rejected by the length
check. -/
def b64SextetsToBytes : List Nat → List Nat
  | s1 :: s2 :: s3 :: s4 :: rest =>
      (s1 * 4 + s2 / 16) :: (s2 % 16 * 16 + s3 / 4) :: (s3 % 4 * 64 + s4) ::
        b64SextetsToBytes rest
  | [s1, s2] => [s1 * 4 + s2 / 16]
  | [s1, s2, s3] => [s1 * 4 + s2 / 16, s2 % 16 * 16 + s3 / 4]
  | _ => []

/-- The platform `atob`, embedded after the WHATWG forgiving-base64 decode
algorithm: strip ASCII whitespace; when the length is a multiple of four,
remove up to two trailing `'='`; fail when the remaining length is `1 mod 4`
or any remaining character is outside the alphabet; otherwise reassemble the
bits. `atob` returns a binary string whose character codes are the decoded
bytes, and the source reads them back with `charCodeAt`, so the embedding
returns the bytes directly. -/
def atob (l : List Char) : Option (List Nat) :=
  let noWs := l.filter (fun c => !isB64Ws c)
  let data := if noWs.length % 4 = 0 then dropPad noWs else noWs
  if data.length % 4 = 1 then none
  else
    match mapB64Index data with
    | none => none
    | some sextets => some (b64SextetsToBytes sextets)

theorem b64Index_b64Char : ∀ n < 64, b64Index (b64Char n) = some n := by decide

theorem b64Char_ne_pad : ∀ n < 64, b64Char n ≠ '=' := by decide

theorem b64Char_ne_comma : ∀ n < 64, b64Char n ≠ ',' := by decide

theorem b64Char_not_ws : ∀ n < 64, isB64Ws (b64Char n) = false := by decide

theorem base64Encode_chars (bs : List Nat) (h : ∀ x ∈ bs, x < 256) :
    ∀ c ∈ base64Encode bs, (∃ n, n < 64 ∧ c = b64Char n) ∨ c = '=' := by
  induction bs using base64Encode.induct with
  | case1 => intro c hc; simp [base64Encode] at hc
  | case2 a =>
    intro c hc
    have ha : a < 256 := h a (by simp)
    simp only [base64Encode, List.mem_cons, List.not_mem_nil, or_false] at hc
    rcases hc with rfl | rfl | rfl | rfl
    · exact Or.inl ⟨a / 4, by omega, rfl⟩
    · exact Or.inl ⟨a % 4 * 16, by omega, rfl⟩
    · exact Or.inr rfl
    · exact Or.inr rfl
  | case3 a b =>
    intro c hc
    have ha : a < 256 := h a (by simp)
    have hb : b < 256 := h b (by simp)
    simp only [base64Encode, List.mem_cons, List.not_mem_nil, or_false] at hc
    rcases hc with rfl | rfl | rfl | rfl
    · exact Or.inl ⟨a / 4, by omega, rfl⟩
    · exact Or.inl ⟨a % 4 * 16 + b / 16, by omega, rfl⟩
    · exact Or.inl ⟨b % 16 * 4, by omega, rfl⟩
    · exact Or.inr rfl
  | case4 a b c rest ih =>
    intro d hd
    have ha : a < 256 := h a (by simp)
    have hb : b < 256 := h b (by simp)
    have hc : c < 256 := h c (by simp)
    simp only [base64Encode, List.mem_cons] at hd
    rcases hd with rfl | rfl | rfl | rfl | hd
    · exact Or.inl ⟨a / 4, by omega, rfl⟩
    · exact Or.inl ⟨a % 4 * 16 + b / 16, by omega, rfl⟩
    · exact Or.inl ⟨b % 16 * 4 + c / 64, by omega, rfl⟩
    · exact Or.inl ⟨c % 64, by omega, rfl⟩
    · exact ih (fun x hx => h x (by simp [hx])) d hd

theorem base64Encode_no_ws (bs : List Nat) (h : ∀ x ∈ bs, x < 256) :
    (base64Encode bs).filter (fun c => !isB64Ws c) = base64Encode bs := by
  rw [List.filter_eq_self]
  intro c hc
  rcases base64Encode_chars bs h c hc with ⟨n, hn, rfl⟩ | rfl
  · simp [b64Char_not_ws n hn]
  · decide

theorem base64Encode_no_comma (bs : List Nat) (h : ∀ x ∈ bs, x < 256) :
    ',' ∉ base64Encode bs := by
  intro hmem
  rcases base64Encode_chars bs h ',' hmem with ⟨n, hn, heq⟩ | heq
  · exact b64Char_ne_comma n hn heq.symm
  · simp at heq

theorem base64Encode_length (bs : List Nat) : (base64Encode bs).length % 4 = 0 := by
  induction bs using base64Encode.induct with
  | case1 => simp [base64Encode]
  | case2 a => simp [base64Encode]
  | case3 a b => simp [base64Encode]
  | case4 a b c rest ih => simp only [base64Encode, List.length_cons]; omega

theorem dropPad_cons4 (c1 c2 c3 c4 : Char) (r : List Char)
    (h4 : c4 ≠ '=') :
    dropPad (c1 :: c2 :: c3 :: c4 :: r) = c1 :: c2 :: c3 :: c4 :: dropPad r := by
  match r with
  | [] => simp [dropPad, h4]
  | [x] =>
    by_cases hx : x = '='
    · simp [dropPad, h4, hx]
    · simp [dropPad, h4, hx]
  | x :: y :: ys => simp [dropPad]

theorem decode_core (bs : List Nat) (h : ∀ x ∈ bs, x < 256) :
    (dropPad (base64Encode bs)).length % 4 ≠ 1 ∧
    ∃ sx, mapB64Index (dropPad (base64Encode bs)) = some sx ∧
      b64SextetsToBytes sx = bs := by
  induction bs using base64Encode.induct with
  | case1 =>
    refine ⟨by simp [base64Encode, dropPad], [], by simp [base64Encode, dropPad, mapB64Index], rfl⟩
  | case2 a =>
    have ha : a < 256 := h a (by simp)
    have hdp : dropPad (base64Encode [a]) = [b64Char (a / 4), b64Char (a % 4 * 16)] := by
      simp [base64Encode, dropPad, b64Char_ne_pad (a / 4) (by omega),
        b64Char_ne_pad (a % 4 * 16) (by omega)]
    refine ⟨by rw [hdp]; simp, [a / 4, a % 4 * 16], ?_, ?_⟩
    · rw [hdp]
      simp [mapB64Index, b64Index_b64Char (a / 4) (by omega),
        b64Index_b64Char (a % 4 * 16) (by omega)]
    · show [a / 4 * 4 + a % 4 * 16 / 16] = [a]
      congr 1
      omega
  | case3 a b =>
    have ha : a < 256 := h a (by simp)
    have hb : b < 256 := h b (by simp)
    have hdp : dropPad (base64Encode [a, b]) =
        [b64Char (a / 4), b64Char (a % 4 * 16 + b / 16), b64Char (b % 16 * 4)] := by
      simp [base64Encode, dropPad, b64Char_ne_pad (a / 4) (by omega),
        b64Char_ne_pad (a % 4 * 16 + b / 16) (by omega),
        b64Char_ne_pad (b % 16 * 4) (by omega)]
    refine ⟨by rw [hdp]; simp, [a / 4, a % 4 * 16 + b / 16, b % 16 * 4], ?_, ?_⟩
    · rw [hdp]
      simp [mapB64Index, b64Index_b64Char (a / 4) (by omega),
        b64Index_b64Char (a % 4 * 16 + b / 16) (by omega),
        b64Index_b64Char (b % 16 * 4) (by omega)]
    · show [a / 4 * 4 + (a % 4 * 16 + b / 16) / 16,
        (a % 4 * 16 + b / 16) % 16 * 16 + b % 16 * 4 / 4] = [a, b]
      congr 1
      · omega
      · congr 1
        omega
  | case4 a b c rest ih =>
    have ha : a < 256 := h a (by simp)
    have hb : b < 256 := h b (by simp)
    have hc : c < 256 := h c (by simp)
    obtain ⟨ihlen, sx, ihmap, ihbytes⟩ := ih (fun x hx => h x (by simp [hx]))
    have hdp : dropPad (base64Encode (a :: b :: c :: rest)) =
        b64Char (a / 4) :: b64Char (a % 4 * 16 + b / 16) ::
          b64Char (b % 16 * 4 + c / 64) :: b64Char (c % 64) ::
          dropPad (base64Encode rest) := by
      show dropPad (_ :: _ :: _ :: _ :: base64Encode rest) = _
      exact dropPad_cons4 _ _ _ _ _ (b64Char_ne_pad (c % 64) (by omega))
    refine ⟨by rw [hdp]; simp only [List.length_cons]; omega,
      a / 4 :: (a % 4 * 16 + b / 16) :: (b % 16 * 4 + c / 64) :: c % 64 :: sx, ?_, ?_⟩
    · rw [hdp]
      simp [mapB64Index, b64Index_b64Char (a / 4) (by omega),
        b64Index_b64Char (a % 4 * 16 + b / 16) (by omega),
        b64Index_b64Char (b % 16 * 4 + c / 64) (by omega),
        b64Index_b64Char (c % 64) (by omega), ihmap]
    · show (a / 4 * 4 + (a % 4 * 16 + b / 16) / 16) ::
        ((a % 4 * 16 + b / 16) % 16 * 16 + (b % 16 * 4 + c / 64) / 4) ::
        ((b % 16 * 4 + c / 64) % 4 * 64 + c % 64) :: b64SextetsToBytes sx = _
      rw [ihbytes]
      congr 1
      · omega
      · congr 1
        · omega
        · congr 1
          omega

/-- Round trip at the heart of lossless normalization: `atob` decodes exactly
the bytes that `base64Encode` came from. -/
theorem atob_base64Encode (bs : List Nat) (h : ∀ x ∈ bs, x < 256) :
    atob (base64Encode bs) = some bs := by
  obtain ⟨hlen, sx, hmap, hbytes⟩ := decode_core bs h
  simp [atob, base64Encode_no_ws bs h, base64Encode_length bs, hmap, hbytes, hlen]

/-- JavaScript `String.prototype.split(",")`: the comma-separated segments,
with empty segments kept (so the result is always non-empty). -/
def splitComma : List Char → List (List Char)
  | [] => [[]]
  | c :: rest =>
    if c = ',' then [] :: splitComma rest
    else
      match splitComma rest with
      | [] => [[c]]
      | p :: ps => (c :: p) :: ps

/-- JavaScript coerces `undefined` to the string "undefined" when it is passed
to `atob`, which is what `parts[1]` evaluates to when the input has no comma. -/
def undefinedChars : List Char := "undefined".toList

/-- ECMAScript line terminators, which `.` (without the `s` flag) does not
match: LF, CR, LINE SEPARATOR, PARAGRAPH SEPARATOR. -/
def isLineTerm (c : Char) : Bool :=
  c = '\n' || c = '\r' || c = '\u2028' || c = '\u2029'

/-- One match attempt of `:(.*?);` at a `':'` already consumed: the lazy group
takes the characters up to the first `';'`, but `.` cannot consume a line
terminator, so the attempt fails if one appears before the `';'`. -/
def mimeAfterColon : List Char → Option (List Char)
  | [] => none
  | c :: rest =>
    if c = ';' then some []
    else if isLineTerm c then none
    else (mimeAfterColon rest).map (fun m => c :: m)

/-- The regular expression `:(.*?);` applied by `match`: the engine tries each
start position left to right, a match starts at a `':'`, and the lazy group
runs to the first `';'` after it without crossing a line terminator; on a
failed attempt the engine retries from the next position. `none` when no
position matches (then the non-null assertion `!` of the source throws). -/
def extractMime : List Char → Option (List Char)
  | [] => none
  | c :: rest =>
    if c = ':' then
      match mimeAfterColon rest with
      | some m => some m
      | none => extractMime rest
    else extractMime rest

/-- Failure of `base64ToBlob`, which in the source is a thrown exception:
`atob` throws `InvalidCharacterError` on bad base64, and `.match(...)![1]`
throws a `TypeError` when the regular expression does not match. Both are the
`MalformedDataUri` failure of the specification. -/
inductive NormError where
  | invalidBase64
  | noMimeMatch
deriving DecidableEq

/-- A JavaScript `Blob`: payload bytes plus MIME type. -/
structure Blob where
  bytes : List Nat
  type : List Char
deriving DecidableEq

/-- Embedding of `base64ToBlob` (page.tsx lines 12–23): split at commas, decode
`parts[1]` with `atob`, extract the MIME type from `parts[0]` with the regular
expression `:(.*?);`, and build a `Blob` of the decoded bytes. The source
evaluates `atob` before the MIME match, so an invalid payload is reported
before a malformed prefix. -/
def base64ToBlob (b64uri : List Char) : Except NormError Blob :=
  let parts := splitComma b64uri
  match atob (parts.getD 1 undefinedChars) with
  | none => .error .invalidBase64
  | some bytes =>
    match extractMime (parts.getD 0 []) with
    | none => .error .noMimeMatch
    | some mime => .ok ⟨bytes, mime⟩

/-- Well-formed data URI assembled from a MIME type and payload bytes, the
shape `canvas.toDataURL`/`getScreenshot` produce: `data:<mime>;base64,<b64>`. -/
def mkDataUri (mime : List Char) (bytes : List Nat) : List Char :=
  "data:".toList ++ mime ++ ";base64,".toList ++ base64Encode bytes

theorem splitComma_no_comma (l : List Char) (h : ',' ∉ l) : splitComma l = [l] := by
  induction l with
  | nil => rfl
  | cons c rest ih =>
    have hc : c ≠ ',' := fun hc => h (by simp [hc])
    have hr : ',' ∉ rest := fun hr => h (by simp [hr])
    simp [splitComma, hc, ih hr]

theorem splitComma_append (p r : List Char) (h : ',' ∉ p) :
    splitComma (p ++ ',' :: r) = p :: splitComma r := by
  induction p with
  | nil => simp [splitComma]
  | cons c p' ih =>
    have hc : c ≠ ',' := fun hc => h (by simp [hc])
    have hp : ',' ∉ p' := fun hp => h (by simp [hp])
    simp [splitComma, hc, ih hp]

theorem mimeAfterColon_append (mime tail : List Char) (hm1 : ';' ∉ mime)
    (hm3 : ∀ c ∈ mime, isLineTerm c = false) :
    mimeAfterColon (mime ++ ';' :: tail) = some mime := by
  induction mime with
  | nil => simp [mimeAfterColon]
  | cons c m ih =>
    have hc1 : c ≠ ';' := fun h => hm1 (by simp [h])
    have hc2 : isLineTerm c = false := hm3 c (by simp)
    simp [mimeAfterColon, hc1, hc2,
      ih (fun h => hm1 (by simp [h])) (fun d hd => hm3 d (by simp [hd]))]

theorem extractMime_wellformed (mime tail : List Char) (hm1 : ';' ∉ mime)
    (hm3 : ∀ c ∈ mime, isLineTerm c = false) :
    extractMime ("data:".toList ++ mime ++ ';' :: tail) = some mime := by
  show extractMime ('d' :: 'a' :: 't' :: 'a' :: ':' :: (mime ++ ';' :: tail)) = _
  simp [extractMime, mimeAfterColon_append mime tail hm1 hm3]

/-- Normalization of a well-formed data URI: the payload is exactly the byte
list whose encoding is the remainder, the MIME type is the text between the
first `':'` and the following `';'`. Shared by the C1 and C3 developments. -/
theorem base64ToBlob_mkDataUri (mime : List Char) (bytes : List Nat)
    (hb : ∀ x ∈ bytes, x < 256) (hm1 : ';' ∉ mime) (hm2 : ',' ∉ mime)
    (hm3 : ∀ c ∈ mime, isLineTerm c = false) :
    base64ToBlob (mkDataUri mime bytes) = .ok ⟨bytes, mime⟩ := by
  have huri : mkDataUri mime bytes =
      ("data:".toList ++ mime ++ ";base64".toList) ++ ',' :: base64Encode bytes := by
    show "data:".toList ++ mime ++ ";base64,".toList ++ base64Encode bytes = _
    simp [List.append_assoc]
  have hnc : ',' ∉ "data:".toList ++ mime ++ ";base64".toList := by
    intro hmem
    simp only [List.mem_append] at hmem
    rcases hmem with (hmem | hmem) | hmem
    · simp [String.toList] at hmem
    · exact hm2 hmem
    · simp [String.toList] at hmem
  have hsplit : splitComma (mkDataUri mime bytes) =
      [("data:".toList ++ mime ++ ";base64".toList), base64Encode bytes] := by
    rw [huri, splitComma_append _ _ hnc,
      splitComma_no_comma _ (base64Encode_no_comma bytes hb)]
  have hex : extractMime ("data:".toList ++ mime ++ ";base64".toList) = some mime := by
    have : "data:".toList ++ mime ++ ";base64".toList =
        "data:".toList ++ mime ++ ';' :: "base64".toList := by
      simp [List.append_assoc]
    rw [this]
    exact extractMime_wellformed mime _ hm1 hm3
  simp only [base64ToBlob, hsplit, List.getD_cons_succ, List.getD_cons_zero,
    atob_base64Encode bytes hb, hex]

/-- Boolean test that `pat` starts the list (JavaScript `startsWith`). -/
def startsList : List Char → List Char → Bool
  | [], _ => true
  | _ :: _, [] => false
  | p :: ps, c :: cs => if p = c then startsList ps cs else false

/-- Boolean substring test, used to embed regular-expression alternation
tests such as `/iPhone|iPad|iPod|Android/i.test`. -/
def hasSubList (pat : List Char) : List Char → Bool
  | [] => startsList pat []
  | c :: rest => startsList pat (c :: rest) || hasSubList pat rest

/-- A JavaScript `File`: a blob together with the OS-supplied name. -/
structure JsFile where
  bytes : List Nat
  type : List Char
  name : List Char
deriving DecidableEq

/-- The `Blob | string` argument of `handleImageUpload` and `handleCapture`.
A `File` is a `Blob` at runtime; the embedding keeps the two apart because
`FormData.append` treats them differently. -/
inductive ImageInput where
  | str (s : List Char)
  | blobVal (b : Blob)
  | fileVal (f : JsFile)
deriving DecidableEq

/-- One entry of a multipart `FormData` body. -/
inductive FormPart where
  | filePart (field : List Char) (bytes : List Nat) (mime : List Char) (filename : List Char)
  | textPart (field : List Char) (value : List Char)
deriving DecidableEq

/-- Default filename the browser attaches when `FormData.append` receives a
`Blob` that is not a `File` and no explicit filename (per the XMLHttpRequest
specification). -/
def blobDefaultName : List Char := "blob".toList

/-- Embedding of the `FormData` construction of `handleImageUpload`
(page.tsx lines 178–190): a data URI is decoded by `base64ToBlob` and appended
as field "image" with the explicit filename "captured.jpg"; any other string
is appended as the text field "imageUrl"; a `Blob` is appended as field
"image" with the browser default filename; a `File` is appended as field
"image" under its own name. An `error` result embeds the exception thrown by
`base64ToBlob`, which aborts `handleImageUpload` before any request is made. -/
def buildFormData (image : ImageInput) : Except NormError (List FormPart) :=
  match image with
  | .str s =>
    if startsList "data:".toList s then
      (base64ToBlob s).map (fun b => [.filePart "image".toList b.bytes b.type "captured.jpg".toList])
    else
      .ok [.textPart "imageUrl".toList s]
  | .blobVal b => .ok [.filePart "image".toList b.bytes b.type blobDefaultName]
  | .fileVal f => .ok [.filePart "image".toList f.bytes f.type f.name]

/-- Structured JSON data, the shape `response.json()` resolves to. -/
inductive Json where
  | jnull
  | jbool (b : Bool)
  | jnum (n : Int)
  | jstr (s : List Char)
  | jarr (elems : List Json)
  | jobj (fields : List (List Char × Json))

/-- A mocked `fetch` response: HTTP status, body text (what `response.text()`
resolves to) and the host JSON parse of that body (what `response.json()`
resolves to — `none` when the parse throws a `SyntaxError`). -/
structure MockResponse where
  status : Nat
  bodyText : List Char
  jsonBody : Option Json

/-- Result of the `fetch` call: either a response arrived, or the promise was
rejected with a network-level error (DNS, connection reset, timeout). -/
inductive FetchOutcome where
  | response (r : MockResponse)
  | networkError (cause : List Char)

/-- The per-capture upload outcome of the specification: `success` is the
`console.log("Server response", data)` path carrying the parsed body,
`failure` any of the `console.error` paths carrying the diagnostic text. -/
inductive UploadOutcome where
  | success (data : Json)
  | failure (reason : List Char)

/-- Reason text modeling the `SyntaxError` thrown by `response.json()` on a
body that is not valid JSON, which the source catches and reports. -/
def jsonErrorCause : List Char := "SyntaxError: response body is not valid JSON".toList

/-- JavaScript `response.ok`: status in the inclusive range 200–299. -/
def respOk (r : MockResponse) : Bool := 200 ≤ r.status && r.status ≤ 299

/-- Embedding of the response handling of `handleImageUpload` (page.tsx lines
193–207): a rejected fetch is caught and reported; a non-ok response is
reported with `await response.text()` as diagnostic; an ok response is parsed
with `response.json()`, whose own failure is caught and reported. -/
def uploadOutcome (net : FetchOutcome) : UploadOutcome :=
  match net with
  | .networkError cause => .failure cause
  | .response r =>
    if respOk r then
      match r.jsonBody with
      | some j => .success j
      | none => .failure jsonErrorCause
    else .failure r.bodyText

/-- One HTTP request as issued by `fetch`. The source computes the endpoint as
`window.location.origin + "/api/upload"`; the origin is the environment's, so
the embedding records the fixed same-origin path. -/
structure UploadRequest where
  path : List Char
  method : List Char
  parts : List FormPart

/-- Embedding of the whole of `handleImageUpload` (page.tsx lines 178–208):
the list of requests issued (empty when `base64ToBlob` threw before `fetch`,
a single POST otherwise — the source has no retry loop) together with the
outcome of handling the mocked fetch result (`none` when no request was
made). -/
def handleImageUpload (image : ImageInput) (net : FetchOutcome) :
    List UploadRequest × Option UploadOutcome :=
  match buildFormData image with
  | .error _ => ([], none)
  | .ok parts => ([⟨"/api/upload".toList, "POST".toList, parts⟩], some (uploadOutcome net))

/-- A preview reference held in the `screenshot` state: a data URI is used
directly as the image source; a blob or file is wrapped in an object URL
created by `URL.createObjectURL`. -/
inductive PreviewRef where
  | dataUri (s : List Char)
  | objectUrl (id : Nat)
deriving DecidableEq

/-- State of the `Analyse` component: the device classification (`null`
before the detection effect ran), the `screenshot` preview state, the set of
object URLs allocated by `URL.createObjectURL` so far (the source never calls
`URL.revokeObjectURL`, so an allocated URL only ever stays allocated), and the
allocator counter. -/
structure AnalyseState where
  isMobileDevice : Option Bool
  screenshot : Option PreviewRef
  allocatedUrls : List Nat
  nextUrl : Nat
deriving DecidableEq

/-- Initial state of a freshly mounted `Analyse` component. -/
def initAnalyse : AnalyseState := ⟨none, none, [], 0⟩

/-- Embedding of `handleCapture` (page.tsx lines 211–220): a string capture is
stored as the preview directly; a blob or file capture first allocates an
object URL and stores that; in every case `handleImageUpload` is then invoked
with the original capture. -/
def handleCapture (s : AnalyseState) (data : ImageInput) (net : FetchOutcome) :
    AnalyseState × List UploadRequest × Option UploadOutcome :=
  match data with
  | .str t =>
    ({s with screenshot := some (.dataUri t)}, handleImageUpload (.str t) net)
  | .blobVal b =>
    ({s with screenshot := some (.objectUrl s.nextUrl),
             allocatedUrls := s.allocatedUrls ++ [s.nextUrl],
             nextUrl := s.nextUrl + 1},
     handleImageUpload (.blobVal b) net)
  | .fileVal f =>
    ({s with screenshot := some (.objectUrl s.nextUrl),
             allocatedUrls := s.allocatedUrls ++ [s.nextUrl],
             nextUrl := s.nextUrl + 1},
     handleImageUpload (.fileVal f) net)

/-- Embedding of `handleMobileFile` (page.tsx lines 222–229): selecting no
file changes nothing; a selected file is previewed through an object URL and
uploaded, exactly as the file branch of `handleCapture`. -/
def handleMobileFile (s : AnalyseState) (f : Option JsFile) (net : FetchOutcome) :
    AnalyseState × List UploadRequest × Option UploadOutcome :=
  match f with
  | none => (s, [], none)
  | some f => handleCapture s (.fileVal f) net

/-- Lower-casing used to embed the case-insensitive `/i` regular-expression
flag over the ASCII device substrings. -/
def lowerChars (l : List Char) : List Char := l.map Char.toLower

/-- The alternatives of the detection regular expression. -/
def mobilePatterns : List (List Char) :=
  ["iPhone".toList, "iPad".toList, "iPod".toList, "Android".toList]

/-- Embedding of `/iPhone|iPad|iPod|Android/i.test(userAgent)` (page.tsx line
175): some alternative occurs in the user-agent string, case-insensitively. -/
def isMobileUA (ua : List Char) : Bool :=
  mobilePatterns.any (fun p => hasSubList (lowerChars p) (lowerChars ua))

/-- Events of the mounted `Analyse` component. -/
inductive AnEvent where
  | detectDevice (ua : List Char)
  | captureEvent (data : ImageInput) (net : FetchOutcome)
  | mobileFileEvent (f : Option JsFile) (net : FetchOutcome)

/-- Whether an event is the detection effect (the only writer of
`isMobileDevice`). -/
def isDetect : AnEvent → Bool
  | .detectDevice _ => true
  | _ => false

/-- State transition of `Analyse` for one event. -/
def anStep (s : AnalyseState) (e : AnEvent) : AnalyseState :=
  match e with
  | .detectDevice ua => {s with isMobileDevice := some (isMobileUA ua)}
  | .captureEvent data net => (handleCapture s data net).1
  | .mobileFileEvent f net => (handleMobileFile s f net).1

/-- Run of a list of events. -/
def anRun (s : AnalyseState) (evs : List AnEvent) : AnalyseState := evs.foldl anStep s

/-- What the `Analyse` component renders: the neutral loading view, or the
page with exactly one of the two capture widgets mounted. -/
structure ViewInfo where
  loadingShown : Bool
  mobileCameraMounted : Bool
  desktopCameraMounted : Bool
  previewShown : Bool
deriving DecidableEq

/-- Embedding of the render branch of `Analyse` (page.tsx lines 231–287):
`null` renders the "Loading camera..." view with no widget; `true` mounts
`MobileCamera`; `false` mounts `DesktopCamera`; on either main page the
captured image is shown exactly when the `screenshot` state is set. -/
def render (s : AnalyseState) : ViewInfo :=
  match s.isMobileDevice with
  | none => ⟨true, false, false, false⟩
  | some true => ⟨false, true, false, s.screenshot.isSome⟩
  | some false => ⟨false, false, true, s.screenshot.isSome⟩

/-- The `facingMode` state of `MobileCamera`. -/
inductive FacingMode where
  | environment
  | user
deriving DecidableEq

/-- Embedding of `toggleCamera` (page.tsx lines 80–82): the updater passed to
`setFacingMode`. -/
def toggleFacing : FacingMode → FacingMode
  | .environment => .user
  | .user => .environment

/-- One run of the camera effect of `MobileCamera` (page.tsx lines 33–65):
the `facingMode` it closed over, its local `activeStream` variable (set only
when its `getUserMedia` promise resolves), and whether its cleanup has already
run. React runs each effect's cleanup exactly once, before the next effect run
or at unmount. -/
structure EffectRec where
  facing : FacingMode
  stream : Option Nat
  cleaned : Bool
deriving DecidableEq

/-- State of a mounted `MobileCamera`: every effect run so far (the last one
is current), the ids of `MediaStream`s whose tracks have not been stopped
(live camera hardware), the stream id allocator, the `facingMode` state and
whether the component is still mounted. -/
structure MCState where
  effects : List EffectRec
  live : List Nat
  nextStream : Nat
  facing : FacingMode
  mounted : Bool
deriving DecidableEq

/-- A freshly mounted `MobileCamera`: the first effect run has called
`getUserMedia` for the rear camera and is awaiting the result. -/
def initMC : MCState := ⟨[⟨.environment, none, false⟩], [], 0, .environment, true⟩

/-- The cleanup function of the current effect (page.tsx lines 60–64): stops
every track of that effect's `activeStream` when it was assigned; when the
effect's `getUserMedia` has not resolved yet, `activeStream` is still `null`
and nothing is stopped. -/
def cleanupCurrent (s : MCState) : MCState :=
  match s.effects.getLast? with
  | none => s
  | some e =>
    let live := match e.stream with
      | some sid => s.live.erase sid
      | none => s.live
    { s with live := live, effects := s.effects.dropLast ++ [{ e with cleaned := true }] }

/-- Scheduler events for a mounted `MobileCamera`: a pending `getUserMedia`
promise of effect `k` resolves; the user presses "Switch Camera"; the
component unmounts. -/
inductive MCEvent where
  | resolveAcq (k : Nat)
  | toggleEvent
  | unmountEvent

/-- State transition of `MobileCamera` for one scheduler event.
`resolveAcq k`: the `getUserMedia` promise of effect `k` resolves with a fresh
`MediaStream`; the effect body assigns its `activeStream` and the stream's
tracks are now running — this happens even when that effect's cleanup has
already run, because nothing in the source cancels the continuation.
`toggleEvent`: React runs the current effect's cleanup, `setFacingMode` flips
the facing, and the re-rendered effect starts a new acquisition.
`unmountEvent`: React runs the current effect's cleanup. -/
def mcStep (s : MCState) (e : MCEvent) : MCState :=
  match e with
  | .resolveAcq k =>
    match s.effects.get? k with
    | none => s
    | some er =>
      if er.stream = none then
        { s with effects := s.effects.set k { er with stream := some s.nextStream },
                 live := s.live ++ [s.nextStream],
                 nextStream := s.nextStream + 1 }
      else s
  | .toggleEvent =>
    if s.mounted then
      let s1 := cleanupCurrent s
      let f := toggleFacing s.facing
      { s1 with facing := f, effects := s1.effects ++ [⟨f, none, false⟩] }
    else s
  | .unmountEvent =>
    if s.mounted then { cleanupCurrent s with mounted := false } else s

/-- Run of a list of scheduler events from the freshly mounted component. -/
def mcRun (evs : List MCEvent) : MCState := evs.foldl mcStep initMC

theorem startsList_iff (p l : List Char) :
    startsList p l = true ↔ ∃ t, l = p ++ t := by
  induction p generalizing l with
  | nil => simp [startsList]
  | cons a p' ih =>
    cases l with
    | nil => simp [startsList]
    | cons c cs =>
      by_cases hac : a = c
      · subst hac
        simp [startsList, ih]
      · simp only [startsList, hac, if_false, Bool.false_eq_true, false_iff]
        rintro ⟨t, ht⟩
        simp only [List.cons_append, List.cons.injEq] at ht
        exact hac ht.1.symm

theorem hasSubList_iff (p l : List Char) :
    hasSubList p l = true ↔ ∃ s t, l = s ++ p ++ t := by
  induction l with
  | nil =>
    simp only [hasSubList, startsList_iff]
    constructor
    · rintro ⟨t, ht⟩
      exact ⟨[], t, by simpa using ht⟩
    · rintro ⟨s, t, hst⟩
      rcases List.append_eq_nil.mp hst.symm with ⟨hsp, ht⟩
      rcases List.append_eq_nil.mp hsp with ⟨hs, hp⟩
      exact ⟨t, by simp [hp, ht]⟩
  | cons c rest ih =>
    simp only [hasSubList, Bool.or_eq_true, startsList_iff, ih]
    constructor
    · rintro (⟨t, ht⟩ | ⟨s, t, hst⟩)
      · exact ⟨[], t, by simpa using ht⟩
      · exact ⟨c :: s, t, by simp [hst]⟩
    · rintro ⟨s, t, hst⟩
      cases s with
      | nil => exact Or.inl ⟨t, by simpa using hst⟩
      | cons a s' =>
        simp only [List.cons_append, List.cons.injEq] at hst
        exact Or.inr ⟨s', t, hst.2⟩

deriving instance DecidableEq for Except

/-! ## Claims -/

/-- C1: for every well-formed data-URI capture (a MIME type free of `';'`,
`','` and line terminators, as every real MIME type is), normalization is
lossless: `base64ToBlob` succeeds with exactly the payload bytes whose
re-encoding is the base64 remainder after the comma (`atob` inverts
`base64Encode`), and the extracted MIME type is the text between the `':'`
and the `';'` of the prefix. The bytes pass through unchanged: nothing is
re-encoded or resized. -/
theorem c1_normalization_lossless (mime : List Char) (bytes : List Nat)
    (hb : ∀ x ∈ bytes, x < 256) (hm1 : ';' ∉ mime) (hm2 : ',' ∉ mime)
    (hm3 : ∀ c ∈ mime, isLineTerm c = false) :
    base64ToBlob (mkDataUri mime bytes) = .ok ⟨bytes, mime⟩ ∧
    atob (base64Encode bytes) = some bytes ∧
    extractMime ("data:".toList ++ mime ++ ';' :: "base64".toList) = some mime :=
  ⟨base64ToBlob_mkDataUri mime bytes hb hm1 hm2 hm3,
   atob_base64Encode bytes hb,
   extractMime_wellformed mime _ hm1 hm3⟩

theorem c1_witness :
    (∀ x ∈ [255, 216, 255, 224, 0, 16, 74, 70, 73, 70], x < 256) ∧
    (∀ c ∈ "image/jpeg".toList, isLineTerm c = false) ∧
    base64ToBlob (mkDataUri "image/jpeg".toList [255, 216, 255, 224, 0, 16, 74, 70, 73, 70]) =
      .ok ⟨[255, 216, 255, 224, 0, 16, 74, 70, 73, 70], "image/jpeg".toList⟩ :=
  ⟨by decide, by decide,
   (c1_normalization_lossless "image/jpeg".toList [255, 216, 255, 224, 0, 16, 74, 70, 73, 70]
     (by decide) (by decide) (by decide) (by decide)).1⟩

/-- C2 counterexample: the URI "data:image/jpeg;foo,QUJD" has a prefix that
does not match the pattern `data:<mime>;base64,` (the `;base64,` marker is
absent altogether), yet normalization succeeds and one upload POST is issued —
the source never validates the marker. -/
theorem c2_counterexample :
    base64ToBlob "data:image/jpeg;foo,QUJD".toList =
      .ok ⟨[65, 66, 67], "image/jpeg".toList⟩ ∧
    hasSubList ";base64,".toList "data:image/jpeg;foo,QUJD".toList = false ∧
    (handleImageUpload (.str "data:image/jpeg;foo,QUJD".toList)
      (.networkError [])).1.length = 1 :=
  ⟨by decide, by decide, by decide⟩

/-- C2 (amended): for every string taking the data-URI branch, normalization
fails (the thrown `MalformedDataUri`, embedded as `NormError`) precisely when
`atob` rejects the segment between the first and second comma (the string
"undefined" when there is no comma), or the part before the first comma has no
`':'` later followed by a `';'`; the `;base64` marker itself is never
validated. Whenever normalization fails, no upload POST is issued. -/
theorem c2_amended_failure_characterization (s : List Char) (net : FetchOutcome)
    (hdata : startsList "data:".toList s = true) :
    ((∃ e, base64ToBlob s = .error e) ↔
      (atob ((splitComma s).getD 1 undefinedChars) = none ∨
       extractMime ((splitComma s).getD 0 []) = none)) ∧
    (∀ e, base64ToBlob s = .error e →
      handleImageUpload (.str s) net = ([], none)) := by
  constructor
  · simp only [base64ToBlob]
    cases h1 : atob ((splitComma s).getD 1 undefinedChars) with
    | none => simp
    | some bs =>
      cases h2 : extractMime ((splitComma s).getD 0 []) with
      | none => simp
      | some m => simp
  · intro e he
    have hdata' : startsList ['d', 'a', 't', 'a', ':'] s = true := hdata
    simp [handleImageUpload, buildFormData, he, hdata', Except.map]

theorem c2_amended_witness :
    startsList "data:".toList "data:image/jpeg;base64,***invalid***".toList = true ∧
    base64ToBlob "data:image/jpeg;base64,***invalid***".toList =
      .error .invalidBase64 ∧
    handleImageUpload (.str "data:image/jpeg;base64,***invalid***".toList)
      (.networkError []) = ([], none) :=
  ⟨by decide, rfl,
   (c2_amended_failure_characterization "data:image/jpeg;base64,***invalid***".toList
     (.networkError []) (by decide)).2 .invalidBase64 rfl⟩

/-- C5 (code-bug evaluation): toggling the facing mode while the initial
`getUserMedia` acquisition is still pending runs the first effect's cleanup
with `activeStream` still `null`, so nothing is stopped; when both
acquisitions then resolve, two `MediaStream`s are live at once on the still
mounted component — the first one is never stopped, violating the at-most-one
live stream invariant. -/
theorem c5_two_live_streams :
    (mcRun [.toggleEvent, .resolveAcq 0, .resolveAcq 1]).live = [0, 1] ∧
    ((mcRun [.toggleEvent, .resolveAcq 0, .resolveAcq 1]).live.length = 2) ∧
    (mcRun [.toggleEvent, .resolveAcq 0, .resolveAcq 1]).mounted = true := by decide

/-- C6 counterexample: two blob captures in quick succession leave the first
capture's object URL still allocated — `URL.revokeObjectURL` is never called —
so the claim that the previous preview is released fails (the displayed
preview is the second URL, as claimed). -/
theorem c6_counterexample :
    0 ∈ ((handleCapture (handleCapture initAnalyse
        (.blobVal ⟨[1], "image/png".toList⟩) (.networkError [])).1
        (.blobVal ⟨[2], "image/png".toList⟩) (.networkError [])).1).allocatedUrls ∧
    ((handleCapture (handleCapture initAnalyse
        (.blobVal ⟨[1], "image/png".toList⟩) (.networkError [])).1
        (.blobVal ⟨[2], "image/png".toList⟩) (.networkError [])).1).screenshot =
      some (.objectUrl 1) := by decide

/-- C6 (amended): each new capture replaces the stored preview reference (last
write wins), so after two captures in quick succession the second object URL
is the one displayed; but the previous object URL is never revoked — both
captures' URLs remain allocated and resolvable. -/
theorem c6_amended_no_release (s : AnalyseState) (b1 b2 : Blob)
    (net1 net2 : FetchOutcome) :
    ((handleCapture (handleCapture s (.blobVal b1) net1).1 (.blobVal b2) net2).1).screenshot =
      some (.objectUrl (s.nextUrl + 1)) ∧
    s.nextUrl ∈ ((handleCapture (handleCapture s (.blobVal b1) net1).1
        (.blobVal b2) net2).1).allocatedUrls ∧
    s.nextUrl + 1 ∈ ((handleCapture (handleCapture s (.blobVal b1) net1).1
        (.blobVal b2) net2).1).allocatedUrls := by
  simp [handleCapture]

/-- C8 counterexample: a plain `Blob` (not a `File`) is appended to the form
data without a filename, so the browser attaches the default name "blob" —
not the placeholder "captured.jpg" the claim states (that placeholder is only
used on the data-URI path). -/
theorem c8_counterexample :
    buildFormData (.blobVal ⟨[9, 9], "image/png".toList⟩) =
      .ok [.filePart "image".toList [9, 9] "image/png".toList "blob".toList] ∧
    ("blob".toList ≠ "captured.jpg".toList) :=
  ⟨rfl, by decide⟩

/-- C8 (amended): for every `BinaryObject` or `FileRef` capture, the bytes and
MIME type pass through unchanged into the single multipart field "image"; the
attached filename is the OS-supplied name for a `FileRef` and the browser
default "blob" for a plain `BinaryObject`. -/
theorem c8_amended_passthrough (b : Blob) (f : JsFile) :
    buildFormData (.blobVal b) =
      .ok [.filePart "image".toList b.bytes b.type blobDefaultName] ∧
    buildFormData (.fileVal f) =
      .ok [.filePart "image".toList f.bytes f.type f.name] :=
  ⟨rfl, rfl⟩

/-- C3: uploading a well-formed data URI (MIME type free of `';'`, `','` and
line terminators) builds a multipart body with the single file field "image"
holding exactly the decoded payload bytes under the filename "captured.jpg",
POSTed once to /api/upload; a 200 response whose body parses as JSON yields
the success outcome carrying that parsed body. -/
theorem c3_upload_multipart (mime : List Char) (bytes : List Nat)
    (hb : ∀ x ∈ bytes, x < 256) (hm1 : ';' ∉ mime) (hm2 : ',' ∉ mime)
    (hm3 : ∀ c ∈ mime, isLineTerm c = false)
    (body : List Char) (j : Json) :
    handleImageUpload (.str (mkDataUri mime bytes)) (.response ⟨200, body, some j⟩) =
      ([⟨"/api/upload".toList, "POST".toList,
         [.filePart "image".toList bytes mime "captured.jpg".toList]⟩],
       some (.success j)) := by
  have hstart : startsList ['d', 'a', 't', 'a', ':'] (mkDataUri mime bytes) = true :=
    (startsList_iff _ _).mpr ⟨mime ++ ";base64,".toList ++ base64Encode bytes,
      by simp [mkDataUri, List.append_assoc]⟩
  simp [handleImageUpload, buildFormData, hstart,
    base64ToBlob_mkDataUri mime bytes hb hm1 hm2 hm3, Except.map, uploadOutcome, respOk]

theorem c3_witness :
    handleImageUpload
      (.str (mkDataUri "image/jpeg".toList [255, 216, 255, 224, 0, 16, 74, 70, 73, 70]))
      (.response ⟨200, "\x7b\"ok\":true\x7d".toList, some (.jobj [("ok".toList, .jbool true)])⟩) =
      ([⟨"/api/upload".toList, "POST".toList,
         [.filePart "image".toList [255, 216, 255, 224, 0, 16, 74, 70, 73, 70]
           "image/jpeg".toList "captured.jpg".toList]⟩],
       some (.success (.jobj [("ok".toList, .jbool true)]))) :=
  c3_upload_multipart "image/jpeg".toList [255, 216, 255, 224, 0, 16, 74, 70, 73, 70]
    (by decide) (by decide) (by decide) (by decide) "\x7b\"ok\":true\x7d".toList
    (.jobj [("ok".toList, .jbool true)])

/-- C4: per capture event the client issues at most one request — exactly one
when normalization succeeded — always a POST to the fixed /api/upload path,
and the issued requests do not depend on the network outcome (no retry). A
non-2xx response yields failure carrying the raw body text, a network-level
error yields failure carrying the cause, and a 2xx response whose body does
not parse as JSON yields failure as well. -/
theorem c4_upload_client (image : ImageInput) (net net2 : FetchOutcome) :
    (handleImageUpload image net).1.length ≤ 1 ∧
    (handleImageUpload image net).1 = (handleImageUpload image net2).1 ∧
    (∀ r ∈ (handleImageUpload image net).1,
      r.path = "/api/upload".toList ∧ r.method = "POST".toList) ∧
    (∀ parts, buildFormData image = .ok parts →
      (handleImageUpload image net).1 =
        [⟨"/api/upload".toList, "POST".toList, parts⟩]) ∧
    (∀ r : MockResponse, respOk r = false →
      uploadOutcome (.response r) = .failure r.bodyText) ∧
    (∀ cause, uploadOutcome (.networkError cause) = .failure cause) ∧
    (∀ r : MockResponse, respOk r = true → r.jsonBody = none →
      uploadOutcome (.response r) = .failure jsonErrorCause) := by
  refine ⟨?_, ?_, ?_, ?_, ?_, ?_, ?_⟩
  · cases hb : buildFormData image <;> simp [handleImageUpload, hb]
  · cases hb : buildFormData image <;> simp [handleImageUpload, hb]
  · cases hb : buildFormData image <;> simp [handleImageUpload, hb]
  · intro parts hparts
    simp [handleImageUpload, hparts]
  · intro r hr
    simp [uploadOutcome, hr]
  · intro cause
    simp [uploadOutcome]
  · intro r hr hj
    simp [uploadOutcome, hr, hj]

theorem c4_witness :
    uploadOutcome (.response ⟨500, "server error".toList, none⟩) =
      .failure "server error".toList :=
  (c4_upload_client (.blobVal ⟨[1], "image/png".toList⟩)
    (.networkError []) (.networkError [])).2.2.2.2.1
    ⟨500, "server error".toList, none⟩ (by decide)

/-- C7: the preview is derived from the capture alone: the post-capture state
is identical whatever the network outcome is, the `screenshot` state is always
set by a capture, a mounted page keeps displaying it, and a 500 response with
body "server error" yields exactly the failure outcome carrying that body
while leaving the preview in place. -/
theorem c7_preview_independent (s : AnalyseState) (data : ImageInput)
    (net1 net2 : FetchOutcome) (body : List Char) (jb : Option Json)
    (hmode : s.isMobileDevice ≠ none) :
    (handleCapture s data net1).1 = (handleCapture s data net2).1 ∧
    (handleCapture s data net1).1.screenshot ≠ none ∧
    (render (handleCapture s data net1).1).previewShown = true ∧
    uploadOutcome (.response ⟨500, body, jb⟩) = .failure body := by
  refine ⟨?_, ?_, ?_, ?_⟩
  · cases data <;> rfl
  · cases data <;> simp [handleCapture]
  · have hm : (handleCapture s data net1).1.isMobileDevice = s.isMobileDevice := by
      cases data <;> rfl
    have hs : ((handleCapture s data net1).1).screenshot.isSome = true := by
      cases data <;> simp [handleCapture]
    cases hmd : s.isMobileDevice with
    | none => exact absurd hmd hmode
    | some b => cases b <;> simp [render, hm, hmd, hs]
  · simp [uploadOutcome, respOk]

theorem c7_witness :
    uploadOutcome (.response ⟨500, "server error".toList, none⟩) =
      .failure "server error".toList ∧
    ((handleCapture ⟨some true, none, [], 0⟩ (.blobVal ⟨[1], "image/png".toList⟩)
        (.response ⟨500, "server error".toList, none⟩)).1).screenshot ≠ none :=
  ⟨(c7_preview_independent ⟨some true, none, [], 0⟩ (.blobVal ⟨[1], "image/png".toList⟩)
      (.response ⟨500, "server error".toList, none⟩) (.networkError [])
      "server error".toList none (by decide)).2.2.2,
   (c7_preview_independent ⟨some true, none, [], 0⟩ (.blobVal ⟨[1], "image/png".toList⟩)
      (.response ⟨500, "server error".toList, none⟩) (.networkError [])
      "server error".toList none (by decide)).2.1⟩

/-- C9: the capture-mode state starts as Unknown (null) and renders only the
neutral loading view with neither capture widget; the detection effect — the
only writer — assigns Mobile exactly when the device identification string
contains one of iPhone, iPad, iPod, Android case-insensitively, else Desktop;
every other event preserves the value, and once assigned it never reverts to
Unknown. -/
theorem c9_device_detection (ua : List Char) (s : AnalyseState) (e : AnEvent)
    (hset : s.isMobileDevice ≠ none) (hnd : isDetect e = false) :
    initAnalyse.isMobileDevice = none ∧
    (anStep initAnalyse (.detectDevice ua)).isMobileDevice = some (isMobileUA ua) ∧
    (isMobileUA ua = true ↔
      ∃ p ∈ mobilePatterns, ∃ l r, lowerChars ua = l ++ lowerChars p ++ r) ∧
    (anStep s e).isMobileDevice = s.isMobileDevice ∧
    (∀ e2 : AnEvent, (anStep s e2).isMobileDevice ≠ none) ∧
    (∀ s2 : AnalyseState, s2.isMobileDevice = none →
      render s2 = ⟨true, false, false, false⟩) := by
  refine ⟨rfl, rfl, ?_, ?_, ?_, ?_⟩
  · simp only [isMobileUA, List.any_eq_true, hasSubList_iff]
  · cases e with
    | detectDevice ua2 => simp [isDetect] at hnd
    | captureEvent data net => cases data <;> rfl
    | mobileFileEvent f net => cases f <;> rfl
  · intro e2
    cases e2 with
    | detectDevice ua2 => simp [anStep]
    | captureEvent data net =>
      cases data <;> simpa [anStep, handleCapture] using hset
    | mobileFileEvent f net =>
      cases f <;> simpa [anStep, handleMobileFile, handleCapture] using hset
  · intro s2 h2
    simp [render, h2]

theorem c9_witness :
    isDetect (.captureEvent (.blobVal ⟨[1], "image/png".toList⟩) (.networkError [])) = false ∧
    (anStep ⟨some true, none, [], 0⟩
      (.captureEvent (.blobVal ⟨[1], "image/png".toList⟩) (.networkError []))).isMobileDevice =
      (⟨some true, none, [], 0⟩ : AnalyseState).isMobileDevice :=
  ⟨by decide,
   (c9_device_detection "Mozilla (iPhone)".toList ⟨some true, none, [], 0⟩
      (.captureEvent (.blobVal ⟨[1], "image/png".toList⟩) (.networkError []))
      (by decide) (by decide)).2.2.2.1⟩

/-- C10: the facing-mode toggle is an involution that always changes the
value: environment maps to user, user maps to environment, and two successive
toggles restore the original facing. -/
theorem c10_toggle_involution :
    (∀ f, toggleFacing (toggleFacing f) = f) ∧
    (∀ f, toggleFacing f ≠ f) ∧
    toggleFacing .environment = .user ∧
    toggleFacing .user = .environment :=
  ⟨fun f => by cases f <;> rfl, fun f => by cases f <;> decide, rfl, rfl⟩

end MariHacks
